import Mathlib

/-!
Verification development for the JSONP request-lifecycle mixin
(`src/jsonp-mixin.js` of DOV-Vlaanderen/polymer2-vo-jsonp).

The mixin is embedded shallowly: the element instance becomes a `Manager`
record carrying the configuration properties, the read-only output
properties, and the browser environment it mutates (the `window` callback
namespace, the document `head`'s script elements, and the stream of
dispatched events).  `Math.random() * 16 | 0` becomes an explicit stream
`rand : Nat → Nat` consumed at increasing indices (reduced mod 16), so every
definition is executable.
-/

namespace VoJsonp

/-- One query-string segment value: lowercase hex digit, as produced by
JavaScript `Number.prototype.toString(16)` for values below 16. -/
def isLowerHexDigit (c : Char) : Bool :=
  (decide ((48 : Nat) ≤ c.toNat) && decide (c.toNat ≤ 57)) ||
  (decide ((97 : Nat) ≤ c.toNat) && decide (c.toNat ≤ 102))

/-- The guid template string used by `_newGuid`
(`'xxxxxxxx-xxxx-4xxx-yxxx-xxxxxxxxxxxx'`). -/
def guidTemplate : List Char := "xxxxxxxx-xxxx-4xxx-yxxx-xxxxxxxxxxxx".toList

/-- `String.replace(/[xy]/g, fn)` over the guid template: each `x` becomes a
random hex digit, each `y` becomes `(randomNum & 0x3 | 0x8).toString(16)`,
consuming one entry of the random stream per replaced character.  Returns the
produced characters and the next unconsumed stream index. -/
def replaceXY (rand : Nat → Nat) : List Char → Nat → List Char × Nat
  | [], k => ([], k)
  | c :: cs, k =>
    if c = 'x' then
      let (rest, kk) := replaceXY rand cs (k + 1)
      (Nat.digitChar (rand k % 16) :: rest, kk)
    else if c = 'y' then
      let (rest, kk) := replaceXY rand cs (k + 1)
      (Nat.digitChar ((rand k % 16) &&& 0x3 ||| 0x8) :: rest, kk)
    else
      let (rest, kk) := replaceXY rand cs k
      (c :: rest, kk)

/-- `_newGuid(noDashes)` (jsonp-mixin.js lines 465-475): fill the template
from the random stream, then strip dashes when `noDashes` is set. -/
def newGuid (noDashes : Bool) (rand : Nat → Nat) (k : Nat) : String × Nat :=
  let (cs, kk) := replaceXY rand guidTemplate k
  (((if noDashes then cs.filter (fun c => c ≠ '-') else cs)).asString, kk)

/-- The default `callbackValue` property value
(`'vo_jsonp_callback_' + this._newGuid(true)`, lines 132-137). -/
def defaultCallbackValue (rand : Nat → Nat) (k : Nat) : String × Nat :=
  let (g, kk) := newGuid true rand k
  ("vo_jsonp_callback_" ++ g, kk)

/-- The test of the regex `/^vo_jsonp_callback_[0-9a-f]{32}$/` used by
`generateRequest` (line 324): the string is exactly the literal
`vo_jsonp_callback_` followed by 32 lowercase hex digits. -/
def cacheRegexTest (s : String) : Bool :=
  s.toList.take 18 == "vo_jsonp_callback_".toList
    && (s.toList.drop 18).length == 32
    && (s.toList.drop 18).all isLowerHexDigit

/-- The characters `encodeURIComponent` leaves unescaped:
`A-Z a-z 0-9 - _ . ! ~ * ' ( )`. -/
def isUnreservedURIChar (c : Char) : Bool :=
  c.isAlpha || c.isDigit || c = '-' || c = '_' || c = '.' || c = '!' ||
  c = '~' || c = '*' || c.toNat = 39 || c = '(' || c = ')'

/-- Uppercase hex digit of a value below 16, as used in percent-escapes. -/
def upperHexChar (n : Nat) : Char :=
  if n < 10 then Char.ofNat (48 + n) else Char.ofNat (55 + n)

/-- UTF-8 bytes of one unicode scalar value. -/
def utf8BytesOfChar (c : Char) : List Nat :=
  let n := c.toNat
  if n < 0x80 then [n]
  else if n < 0x800 then
    [0xC0 ||| (n >>> 6), 0x80 ||| (n &&& 0x3F)]
  else if n < 0x10000 then
    [0xE0 ||| (n >>> 12), 0x80 ||| ((n >>> 6) &&& 0x3F), 0x80 ||| (n &&& 0x3F)]
  else
    [0xF0 ||| (n >>> 18), 0x80 ||| ((n >>> 12) &&& 0x3F),
     0x80 ||| ((n >>> 6) &&& 0x3F), 0x80 ||| (n &&& 0x3F)]

/-- Percent-escape of one byte (`%XX`, uppercase hex). -/
def percentEncodeByte (b : Nat) : List Char :=
  ['%', upperHexChar (b / 16 % 16), upperHexChar (b % 16)]

/-- JavaScript `encodeURIComponent`: unreserved characters kept, every other
character UTF-8 encoded and percent-escaped. -/
def encodeURIComponent (s : String) : String :=
  (s.toList.foldr
    (fun c acc =>
      (if isUnreservedURIChar c then [c]
       else (utf8BytesOfChar c).foldr (fun b a2 => percentEncodeByte b ++ a2) []) ++ acc)
    []).asString

/-- JavaScript object assignment `obj[k] = v` on an object rendered as an
insertion-ordered association list: an existing key keeps its position and
gets the new value, a fresh key is appended. -/
def upsert {α : Type} (l : List (String × α)) (k : String) (v : α) :
    List (String × α) :=
  if l.any (fun p => p.1 == k) then
    l.map (fun p => if p.1 == k then (k, v) else p)
  else l ++ [(k, v)]

/-- The `options` snapshot attached to a request by `_requestOptions`
(lines 292-300). -/
structure RequestOptions where
  cache : Bool
  callbackKey : String
  callbackValue : String
  sync : Bool
  url : String
deriving DecidableEq, Repr

/-- A `Request` object: `id` models JavaScript object identity (each
`generateRequest` call makes a fresh object), `loading` the mutable loading
field, `scriptSrc` the `src` of the script element created for it. -/
structure Request where
  id : Nat
  loading : Bool
  options : RequestOptions
  scriptSrc : String
deriving DecidableEq, Repr

/-- One dispatched lifecycle event, tagged with the argument the source
passes alongside the `CustomEvent` at the dispatch site. -/
inductive Emitted where
  | sent (reqId : Nat)
  | load (ev : String)
  | error (ev : String)
  | response (data : String)
  | complete (reqId : Nat)
deriving DecidableEq, Repr

/-- A script element attached to the document head. -/
structure Script where
  reqId : Nat
  src : String
  async : Bool
deriving DecidableEq, Repr

/-- The configuration errors `generateRequest` throws (lines 324-333). -/
inductive JsonpError where
  | callbackValueRequired
  | urlRequired
deriving DecidableEq, Repr

/-- The element instance together with the browser environment it mutates.
Configuration fields mirror the `properties` block; `window` is the global
callback namespace (name to registered request id), `scripts` the script
elements appended to the document head, `events` the dispatched events in
order, `rand`/`randSeq` the `Math.random` stream and its cursor,
`pendingDeadline` the single debounce job's deadline if one is pending. -/
structure Manager where
  auto : Bool
  cache : Bool
  callbackKey : String
  callbackValue : String
  debounceDuration : Nat
  params : List (String × String)
  sync : Bool
  url : String
  activeRequests : List Request
  lastAborted : Bool
  lastError : Option String
  lastLoad : Option String
  lastRequest : Option Request
  lastResponse : Option String
  loading : Bool
  window : List (String × Nat)
  scripts : List Script
  events : List Emitted
  nextId : Nat
  rand : Nat → Nat
  randSeq : Nat
  pendingDeadline : Option Nat

/-- A fresh element with the property defaults of the `properties` block:
`auto=false`, `cache=false`, `callbackKey="callback"`, auto-generated
`callbackValue`, `debounceDuration=0`, empty `params`, `sync=false`,
empty `url`, and cleared outputs. -/
def initManager (rand : Nat → Nat) : Manager :=
  let (cv, k) := defaultCallbackValue rand 0
  { auto := false, cache := false, callbackKey := "callback", callbackValue := cv,
    debounceDuration := 0, params := [], sync := false, url := "",
    activeRequests := [], lastAborted := false, lastError := none,
    lastLoad := none, lastRequest := none, lastResponse := none,
    loading := false, window := [], scripts := [], events := [],
    nextId := 0, rand := rand, randSeq := k, pendingDeadline := none }

/-- The entry list held by `this.params` at the end of one evaluation of the
`_queryString` getter (lines 264-273): the callback pair is assigned when the
callback key is truthy (a non-empty string), then the `_` cache-buster is
assigned when `cache` is false. -/
def queryEntriesList (m : Manager) : List (String × String) :=
  let ps := if m.callbackKey == "" then m.params else upsert m.params m.callbackKey m.callbackValue
  if m.cache then ps else upsert ps "_" (newGuid true m.rand m.randSeq).1

/-- The random-stream cursor after one evaluation of the `_queryString`
getter: a guid is consumed exactly when `cache` is false. -/
def queryEntriesSeq (m : Manager) : Nat :=
  if m.cache then m.randSeq else (newGuid true m.rand m.randSeq).2

/-- The body of the `_queryString` getter up to the final join (lines
264-273): yields the entry list and the manager whose `params` object has
been mutated in place (and whose random cursor advanced). -/
def queryEntries (m : Manager) : List (String × String) × Manager :=
  (queryEntriesList m, { m with params := queryEntriesList m, randSeq := queryEntriesSeq m })

/-- The array built by the `reduce` in `_queryString` (lines 275-277):
one `key=encodeURIComponent(value)` segment per entry. -/
def queryStringArr (m : Manager) : List String × Manager :=
  ((queryEntries m).1.map (fun p => p.1 ++ "=" ++ encodeURIComponent p.2), (queryEntries m).2)

/-- The `_queryString` getter (lines 264-278): the segments joined with `&`. -/
def queryString (m : Manager) : String × Manager :=
  (String.intercalate "&" (queryStringArr m).1, (queryStringArr m).2)

/-- The `_requestUrl` getter (lines 283-287): `url + '?' + qs` when the query
string is nonempty, else the bare url. -/
def requestUrl (m : Manager) : String × Manager :=
  (if (queryString m).1 == "" then m.url else m.url ++ "?" ++ (queryString m).1,
   (queryString m).2)

/-- The side effects of lines 338-339 of `generateRequest`:
`_setLoading(true)` and `_setLastAborted(false)`. -/
def genPre (m : Manager) : Manager :=
  { m with loading := true, lastAborted := false }

/-- The manager after the first `_requestUrl` evaluation inside
`generateRequest` (computing `request.options.url`). -/
def genMB (m : Manager) : Manager := (requestUrl (genPre m)).2

/-- The manager after the second `_requestUrl` evaluation inside
`generateRequest` (computing `request.script.src`; the getter runs again,
consuming a fresh guid and re-mutating `params`). -/
def genMC (m : Manager) : Manager := (requestUrl (genMB m)).2

/-- The request object built by `generateRequest` (lines 335-349): a fresh
identity, `loading` true, the `_requestOptions` snapshot (first url
evaluation), and the script src (second url evaluation). -/
def genReq (m : Manager) : Request :=
  { id := m.nextId, loading := true,
    options := { cache := (genMB m).cache, callbackKey := (genMB m).callbackKey,
                 callbackValue := (genMB m).callbackValue, sync := (genMB m).sync,
                 url := (requestUrl (genPre m)).1 },
    scriptSrc := (requestUrl (genMB m)).1 }

/-- The manager state produced by a successful `generateRequest` (lines
335-356): the request is recorded as lastRequest, pushed onto
`activeRequests`, the window callback is registered under the current
`callbackValue` (overwriting any previous registration under that name),
the script element is appended to the document head, and `sent` is
dispatched. -/
def genOut (m : Manager) : Manager :=
  { genMC m with
    lastRequest := some (genReq m),
    activeRequests := (genMC m).activeRequests ++ [genReq m],
    window := upsert (genMC m).window (genMC m).callbackValue (genReq m).id,
    scripts := (genMC m).scripts ++
      [{ reqId := (genReq m).id, src := (genReq m).scriptSrc, async := !(genMC m).sync }],
    events := (genMC m).events ++ [Emitted.sent (genReq m).id],
    nextId := m.nextId + 1 }

/-- `generateRequest` (lines 323-357).  The two throw checks come first, in
source order (cache/callback check, then url check), before any state
change; on success the built state and request are returned. -/
def generateRequest (m : Manager) : Except JsonpError (Manager × Request) :=
  if m.cache && (cacheRegexTest m.callbackValue || m.callbackValue == "") then
    .error .callbackValueRequired
  else if m.url == "" then
    .error .urlRequired
  else .ok (genOut m, genReq m)

/-- The caller-with-catch shape used by the debounce job (lines 309-313):
run `generateRequest` and ignore a configuration error. -/
def tryGenerateRequest (m : Manager) : Manager :=
  match generateRequest m with
  | .ok (m2, _) => m2
  | .error _ => m

/-- Index of the first request with the given identity, `none` when absent
(requests are compared by object identity, modelled by `id`). -/
def findIdxReq (rid : Nat) : List Request → Option Nat
  | [] => none
  | a :: l => if a.id == rid then some 0 else (findIdxReq rid l).map (· + 1)

/-- `Array.prototype.indexOf` by object identity over the active set, `-1`
when absent. -/
def indexOfReq (l : List Request) (r : Request) : Int :=
  match findIdxReq r.id l with
  | some i => (i : Int)
  | none => -1

/-- `_cleanupRequest` (lines 395-415): when the request is found in
`activeRequests`, set its `loading` false in place, drop the aggregate
loading flag when no active request is loading any more, splice the request
out, delete the window entry under the *current* `callbackValue`, and remove
the script element from the document.  Absent requests (and a missing
argument) are a no-op. -/
def cleanupRequest (m : Manager) (x : Option Request) : Manager :=
  match x with
  | none => m
  | some r =>
    match findIdxReq r.id m.activeRequests with
    | none => m
    | some i =>
      let updated := m.activeRequests.map
        (fun a => if a.id == r.id then { a with loading := false } else a)
      let loadingLeft := updated.any (fun a => a.loading)
      { m with
        activeRequests := updated.eraseIdx i,
        loading := if loadingLeft then m.loading else false,
        window := m.window.filter (fun p => p.1 != m.callbackValue),
        scripts := m.scripts.filter (fun s => s.reqId != r.id) }

/-- `abortRequest` (lines 367-378): default the argument to the last active
request when none is supplied; set `lastAborted` when
`indexOf(request) === length - 1` (note both sides are `-1` when a request
is supplied but the active set is empty); then clean up. -/
def abortRequest (m : Manager) (x : Option Request) : Manager :=
  let req : Option Request :=
    match x with
    | none => m.activeRequests.getLast?
    | some r => some r
  let m1 :=
    match req with
    | none => m
    | some r =>
      if indexOfReq m.activeRequests r = (m.activeRequests.length : Int) - 1 then
        { m with lastAborted := true }
      else m
  cleanupRequest m1 req

/-- `_discardRequest` (lines 385-388): cleanup then dispatch `complete`. -/
def discardRequest (m : Manager) (r : Request) : Manager :=
  let m1 := cleanupRequest m (some r)
  { m1 with events := m1.events ++ [Emitted.complete r.id] }

/-- `_handleResponse` (lines 423-430): record the payload as lastResponse,
clear lastError, dispatch `response`, then discard the request. -/
def handleResponse (m : Manager) (r : Request) (d : String) : Manager :=
  let m1 := { m with lastResponse := some d, lastError := none,
                     events := m.events ++ [Emitted.response d] }
  discardRequest m1 r

/-- `_handleError` (lines 438-445): clear lastResponse, record the error
event, dispatch `error`, then discard the request. -/
def handleError (m : Manager) (r : Request) (ev : String) : Manager :=
  let m1 := { m with lastResponse := none, lastError := some ev,
                     events := m.events ++ [Emitted.error ev] }
  discardRequest m1 r

/-- `_handleLoad` (lines 453-457): record lastLoad and dispatch `load`;
the request argument is not used. -/
def handleLoad (m : Manager) (_r : Request) (ev : String) : Manager :=
  { m with lastLoad := some ev, events := m.events ++ [Emitted.load ev] }

/-- `_requestOptionsChanged` (lines 305-316), observing every non-readOnly
property: `Polymer.Debouncer.debounce` cancels the pending job, if any, and
schedules a single new one `debounceDuration` ms after the change. -/
def requestOptionsChanged (m : Manager) (now : Nat) : Manager :=
  { m with pendingDeadline := some (now + m.debounceDuration) }

/-- Firing the pending debounce job: the job slot empties and, when `auto`
is set, `generateRequest` runs inside the try/catch of lines 309-313. -/
def fireDebounce (m : Manager) : Manager :=
  match m.pendingDeadline with
  | none => m
  | some _ =>
    let m1 := { m with pendingDeadline := none }
    if m1.auto then tryGenerateRequest m1 else m1

/-! ### Helper lemmas: the generated guid format -/

lemma isLowerHexDigit_digitChar_of_lt {n : Nat} (h : n < 16) :
    isLowerHexDigit (Nat.digitChar n) = true := by
  have hball : ∀ m, m < 16 → isLowerHexDigit (Nat.digitChar m) = true := by decide
  exact hball n h

lemma yval_lt (a : Nat) : a &&& 0x3 ||| 0x8 < 16 := by
  have h1 : a &&& 0x3 ≤ 3 := Nat.and_le_right
  set b := a &&& 0x3 with hb
  interval_cases b <;> decide

lemma hex_ne_dash {c : Char} (h : isLowerHexDigit c = true) : c ≠ '-' := by
  intro hc
  subst hc
  exact absurd h (by decide)

lemma replaceXY_filter (rand : Nat → Nat) :
    ∀ (cs : List Char) (k : Nat),
      (∀ c ∈ cs, c = 'x' ∨ c = 'y' ∨ c = '-' ∨ isLowerHexDigit c = true) →
      ((replaceXY rand cs k).1.filter (fun c => c ≠ '-')).length
        = (cs.filter (fun c => c ≠ '-')).length
      ∧ ∀ c ∈ (replaceXY rand cs k).1, c = '-' ∨ isLowerHexDigit c = true := by
  intro cs
  induction cs with
  | nil =>
    intro k _
    simp [replaceXY]
  | cons c cs ih =>
    intro k h
    have hc := h c (List.mem_cons_self c cs)
    have htail := fun d hd => h d (List.mem_cons_of_mem c hd)
    rcases hc with hx | hy | hd | hh
    · subst hx
      obtain ⟨ih1, ih2⟩ := ih (k + 1) htail
      have hhex : isLowerHexDigit (Nat.digitChar (rand k % 16)) = true :=
        isLowerHexDigit_digitChar_of_lt (Nat.mod_lt _ (by norm_num))
      have hne := hex_ne_dash hhex
      constructor
      · simpa [replaceXY, List.filter_cons, hne] using ih1
      · intro d hd
        rcases (by simpa [replaceXY] using hd : d = _ ∨ d ∈ (replaceXY rand cs (k + 1)).1)
          with rfl | hmem
        · exact Or.inr hhex
        · exact ih2 d hmem
    · subst hy
      obtain ⟨ih1, ih2⟩ := ih (k + 1) htail
      have hhex : isLowerHexDigit (Nat.digitChar (rand k % 16 &&& 0x3 ||| 0x8)) = true :=
        isLowerHexDigit_digitChar_of_lt (yval_lt _)
      have hne := hex_ne_dash hhex
      constructor
      · simpa [replaceXY, List.filter_cons, hne] using ih1
      · intro d hd
        rcases (by simpa [replaceXY] using hd : d = _ ∨ d ∈ (replaceXY rand cs (k + 1)).1)
          with rfl | hmem
        · exact Or.inr hhex
        · exact ih2 d hmem
    · subst hd
      obtain ⟨ih1, ih2⟩ := ih k htail
      constructor
      · simpa [replaceXY, List.filter_cons] using ih1
      · intro d hd2
        rcases (by simpa [replaceXY] using hd2 : d = '-' ∨ d ∈ (replaceXY rand cs k).1)
          with rfl | hmem
        · exact Or.inl rfl
        · exact ih2 d hmem
    · have hx : c ≠ 'x' := by rintro rfl; exact absurd hh (by decide)
      have hy : c ≠ 'y' := by rintro rfl; exact absurd hh (by decide)
      have hne := hex_ne_dash hh
      obtain ⟨ih1, ih2⟩ := ih k htail
      constructor
      · simpa [replaceXY, hx, hy, List.filter_cons, hne] using ih1
      · intro d hd2
        rcases (by simpa [replaceXY, hx, hy] using hd2 : d = c ∨ d ∈ (replaceXY rand cs k).1)
          with rfl | hmem
        · exact Or.inr hh
        · exact ih2 d hmem

lemma guidTemplate_ok :
    ∀ c ∈ guidTemplate, c = 'x' ∨ c = 'y' ∨ c = '-' ∨ isLowerHexDigit c = true := by
  decide

lemma newGuid_noDashes_spec (rand : Nat → Nat) (k : Nat) :
    ((newGuid true rand k).1).toList.length = 32
    ∧ ∀ c ∈ ((newGuid true rand k).1).toList, isLowerHexDigit c = true := by
  obtain ⟨h1, h2⟩ := replaceXY_filter rand guidTemplate k guidTemplate_ok
  have hlist : ((newGuid true rand k).1).toList
      = (replaceXY rand guidTemplate k).1.filter (fun c => c ≠ '-') := rfl
  constructor
  · rw [hlist, h1]
    decide
  · intro c hc
    rw [hlist] at hc
    have hmem := List.mem_of_mem_filter hc
    have hne : ¬ (c = '-') := by
      have := List.of_mem_filter hc
      simpa using this
    rcases h2 c hmem with h | h
    · exact absurd h hne
    · exact h

lemma cacheRegexTest_defaultCallbackValue (rand : Nat → Nat) (k : Nat) :
    cacheRegexTest (defaultCallbackValue rand k).1 = true := by
  obtain ⟨hlen, hhex⟩ := newGuid_noDashes_spec rand k
  have hsplit : ((defaultCallbackValue rand k).1).toList
      = "vo_jsonp_callback_".toList ++ ((newGuid true rand k).1).toList := by
    simp [defaultCallbackValue, String.toList]
  have h18 : ("vo_jsonp_callback_".toList).length = 18 := by decide
  unfold cacheRegexTest
  rw [hsplit, ← h18, List.take_left, List.drop_left]
  simp only [List.all_eq_true, beq_self_eq_true, Bool.true_and, Bool.and_eq_true, beq_iff_eq]
  exact ⟨hlen, hhex⟩

/-! ### Concrete managers used by counterexamples and witnesses -/

def exRand : Nat → Nat := fun _ => 0

/-- A manager with `cache` on and a caller-supplied, non-empty callback
value that happens to match the auto-generated-token pattern. -/
def c1mgr : Manager :=
  { initManager exRand with
    cache := true,
    url := "https://api.example.com/data",
    callbackValue := "vo_jsonp_callback_00000000000000000000000000000000" }

/-- A manager with `cache` on and a stable caller-supplied callback value. -/
def c1mgrW : Manager :=
  { initManager exRand with
    cache := true,
    url := "https://api.example.com/data",
    callbackValue := "stable" }

/-! ### C1 -/

/-- C1 counterexample: with `cache` enabled, a caller-supplied non-empty
`callbackValue` that matches the auto-generated-token pattern still makes
`generateRequest` throw the configuration error, contradicting the claim
that every caller-supplied non-empty callback value avoids it. -/
theorem c1_counterexample :
    c1mgr.cache = true ∧ c1mgr.callbackValue ≠ "" ∧
    generateRequest c1mgr = .error .callbackValueRequired := by
  refine ⟨rfl, by decide, rfl⟩

/-- C1 (amended): with `cache` enabled, `generateRequest` fails with the
configuration error exactly when `callbackValue` is empty or matches the
auto-generated-token pattern `vo_jsonp_callback_` + 32 lowercase hex digits
(regardless of whether the caller supplied it); the failure happens before
any side effect — a caught error leaves the manager unchanged — and every
auto-generated default `callbackValue` matches that pattern, so an
auto-generated value always fails. -/
theorem c1_cache_error_iff (m : Manager) (hc : m.cache = true) :
    (generateRequest m = .error .callbackValueRequired ↔
      (m.callbackValue = "" ∨ cacheRegexTest m.callbackValue = true))
    ∧ (∀ e, generateRequest m = .error e → tryGenerateRequest m = m)
    ∧ (∀ rand k, cacheRegexTest (defaultCallbackValue rand k).1 = true) := by
  refine ⟨?_, ?_, fun rand k => cacheRegexTest_defaultCallbackValue rand k⟩
  · unfold generateRequest
    rw [hc]
    cases hr : cacheRegexTest m.callbackValue with
    | true => simp [hr]
    | false =>
      cases he : m.callbackValue == "" with
      | true =>
        have h : m.callbackValue = "" := by simpa using he
        simp [h]
      | false =>
        have hne : ¬ m.callbackValue = "" := by simpa using he
        simp only [hr, he, Bool.or_self, Bool.and_false, Bool.false_eq_true, ↓reduceIte]
        constructor
        · intro h
          split at h <;> simp_all
        · intro h
          rcases h with h | h
          · exact absurd h hne
          · exact absurd h (by simp [hr])
  · intro e h
    unfold tryGenerateRequest
    rw [h]

/-- C1 witness: the amended theorem applied to a concrete cached manager
with a stable callback value, for which no configuration error is raised. -/
theorem c1_witness :
    c1mgrW.cache = true ∧
    ((generateRequest c1mgrW = .error .callbackValueRequired ↔
       (c1mgrW.callbackValue = "" ∨ cacheRegexTest c1mgrW.callbackValue = true))
     ∧ (∀ e, generateRequest c1mgrW = .error e → tryGenerateRequest c1mgrW = c1mgrW)
     ∧ (∀ rand k, cacheRegexTest (defaultCallbackValue rand k).1 = true)) :=
  ⟨rfl, c1_cache_error_iff c1mgrW rfl⟩

/-! ### Helper lemmas: request lookup in the active set -/

lemma findIdxReq_eq_none_iff (rid : Nat) (l : List Request) :
    findIdxReq rid l = none ↔ ∀ a ∈ l, a.id ≠ rid := by
  induction l with
  | nil => simp [findIdxReq]
  | cons x l ih =>
    by_cases hx : x.id = rid
    · simp [findIdxReq, hx]
    · simp [findIdxReq, hx, ih]

lemma setLoadingFalse_id (a : Request) (rid : Nat) :
    (if a.id == rid then { a with loading := false } else a).id = a.id := by
  split <;> rfl

lemma findIdxReq_lt_length {rid : Nat} :
    ∀ {l : List Request} {i : Nat}, findIdxReq rid l = some i → i < l.length := by
  intro l
  induction l with
  | nil => intro i h; simp [findIdxReq] at h
  | cons x l ih =>
    intro i h
    by_cases hx : x.id = rid
    · simp [findIdxReq, hx] at h
      simp only [List.length_cons]
      omega
    · simp [findIdxReq, hx] at h
      obtain ⟨j, hj, rfl⟩ := h
      have := ih hj
      simp only [List.length_cons]
      omega

lemma findIdxReq_get {rid : Nat} :
    ∀ {l : List Request} {i : Nat} (h : findIdxReq rid l = some i),
      (l.get ⟨i, findIdxReq_lt_length h⟩).id = rid := by
  intro l
  induction l with
  | nil => intro i h; simp [findIdxReq] at h
  | cons x l ih =>
    intro i h
    by_cases hx : x.id = rid
    · have h0 : i = 0 := by simpa [findIdxReq, hx] using h.symm
      subst h0
      simpa using hx
    · have h' := h
      simp [findIdxReq, hx] at h'
      obtain ⟨j, hj, hij⟩ := h'
      subst hij
      simpa using ih hj

lemma no_rid_after_erase {rid : Nat} :
    ∀ {l : List Request} {i : Nat}, findIdxReq rid l = some i →
      (l.map Request.id).Nodup →
      ∀ a ∈ (l.map (fun a => if a.id == rid then { a with loading := false } else a)).eraseIdx i,
        a.id ≠ rid := by
  intro l
  induction l with
  | nil => intro i h; simp [findIdxReq] at h
  | cons x l ih =>
    intro i h hnodup a ha
    have hnd := hnodup
    rw [List.map_cons, List.nodup_cons] at hnd
    by_cases hx : x.id = rid
    · have h0 : i = 0 := by simpa [findIdxReq, hx] using h.symm
      subst h0
      rw [List.map_cons, List.eraseIdx_cons_zero] at ha
      obtain ⟨b, hb, rfl⟩ := List.mem_map.1 ha
      rw [setLoadingFalse_id]
      intro hcontra
      exact hnd.1 (by rw [hx, ← hcontra]; exact List.mem_map.2 ⟨b, hb, rfl⟩)
    · have h' := h
      simp [findIdxReq, hx] at h'
      obtain ⟨j, hj, hij⟩ := h'
      subst hij
      rw [List.map_cons, List.eraseIdx_cons_succ] at ha
      rcases List.mem_cons.1 ha with rfl | ha2
      · rw [setLoadingFalse_id]
        exact hx
      · exact ih hj hnd.2 a ha2

/-! ### C6 -/

/-- C6: when `generateRequest`'s preconditions are violated (empty url, or
cache enabled without a stable callback value), it fails with a
configuration error, and catching that error observes the manager — active
set, loading flag, last-request, last-aborted, window namespace, document
scripts — exactly as it was: the throw happens before any side effect. -/
theorem c6_config_error_no_side_effects (m : Manager)
    (h : m.url = "" ∨
      (m.cache = true ∧ (m.callbackValue = "" ∨ cacheRegexTest m.callbackValue = true))) :
    (∃ e, generateRequest m = .error e) ∧ tryGenerateRequest m = m := by
  have hex2 : ∃ e, generateRequest m = .error e := by
    unfold generateRequest
    cases hcond : (m.cache && (cacheRegexTest m.callbackValue || m.callbackValue == "")) with
    | true => exact ⟨.callbackValueRequired, by simp [hcond]⟩
    | false =>
      have hurl : m.url = "" := by
        rcases h with h | ⟨h1, h2⟩
        · exact h
        · exfalso
          rcases h2 with h2 | h2 <;> simp [h1, h2] at hcond
      exact ⟨.urlRequired, by simp [hcond, hurl]⟩
  obtain ⟨e, he⟩ := hex2
  refine ⟨⟨e, he⟩, ?_⟩
  unfold tryGenerateRequest
  rw [he]

/-- C6 witness: a freshly constructed manager has an empty url, so its
`generateRequest` fails and the caught failure leaves it unchanged. -/
theorem c6_witness :
    ((initManager exRand).url = "" ∨
      ((initManager exRand).cache = true ∧
        ((initManager exRand).callbackValue = "" ∨
          cacheRegexTest (initManager exRand).callbackValue = true)))
    ∧ (∃ e, generateRequest (initManager exRand) = .error e)
    ∧ tryGenerateRequest (initManager exRand) = initManager exRand :=
  ⟨Or.inl rfl, c6_config_error_no_side_effects (initManager exRand) (Or.inl rfl)⟩

/-! ### Helper lemmas: computation rules for cleanup and abort -/

lemma cleanup_noop {m : Manager} {r : Request}
    (h : findIdxReq r.id m.activeRequests = none) :
    cleanupRequest m (some r) = m := by
  simp only [cleanupRequest, h]

lemma cleanup_found {m : Manager} {r : Request} {i : Nat}
    (h : findIdxReq r.id m.activeRequests = some i) :
    cleanupRequest m (some r) =
      { m with
        activeRequests :=
          (m.activeRequests.map
            (fun a => if a.id == r.id then { a with loading := false } else a)).eraseIdx i,
        loading :=
          if (m.activeRequests.map
              (fun a => if a.id == r.id then { a with loading := false } else a)).any
              (fun a => a.loading)
          then m.loading else false,
        window := m.window.filter (fun p => p.1 != m.callbackValue),
        scripts := m.scripts.filter (fun s => s.reqId != r.id) } := by
  simp only [cleanupRequest, h]

lemma indexOfReq_eq_neg_one {l : List Request} {r : Request}
    (h : findIdxReq r.id l = none) : indexOfReq l r = -1 := by
  unfold indexOfReq
  rw [h]

lemma indexOfReq_eq_coe {l : List Request} {r : Request} {i : Nat}
    (h : findIdxReq r.id l = some i) : indexOfReq l r = (i : Int) := by
  unfold indexOfReq
  rw [h]

lemma abortRequest_some (m : Manager) (r : Request) :
    abortRequest m (some r) =
      cleanupRequest
        (if indexOfReq m.activeRequests r = (m.activeRequests.length : Int) - 1
         then { m with lastAborted := true } else m)
        (some r) := rfl

lemma set_lastAborted_self {m : Manager} (h : m.lastAborted = true) :
    ({ m with lastAborted := true } : Manager) = m := by
  cases m
  simp_all

lemma abort_absent {m : Manager} {r : Request}
    (hf : findIdxReq r.id m.activeRequests = none) :
    abortRequest m (some r) =
      if m.activeRequests.length = 0 then ({ m with lastAborted := true } : Manager) else m := by
  by_cases hlen : m.activeRequests.length = 0
  · rw [if_pos hlen, abortRequest_some]
    rw [if_pos (by rw [indexOfReq_eq_neg_one hf, hlen]; decide)]
    exact cleanup_noop hf
  · rw [if_neg hlen, abortRequest_some]
    rw [if_neg (by rw [indexOfReq_eq_neg_one hf]; intro hcon; omega)]
    exact cleanup_noop hf

/-! ### C8 -/

/-- C8: cleanup of a request that is not in the active set is a no-op, and
`abortRequest` applied twice in a row to the same request equals applying
it once — the second call changes no state and cannot throw (all operations
of the embedding are total); ids in the active set are assumed distinct, as
every pushed request object is fresh. -/
theorem c8_cleanup_idempotent (m : Manager) (r : Request)
    (hnodup : (m.activeRequests.map Request.id).Nodup) :
    ((∀ a ∈ m.activeRequests, a.id ≠ r.id) → cleanupRequest m (some r) = m)
    ∧ abortRequest (abortRequest m (some r)) (some r) = abortRequest m (some r) := by
  constructor
  · intro habs
    exact cleanup_noop ((findIdxReq_eq_none_iff _ _).2 habs)
  · cases hf : findIdxReq r.id m.activeRequests with
    | none =>
      rw [abort_absent hf]
      by_cases hlen : m.activeRequests.length = 0
      · rw [if_pos hlen]
        rw [abort_absent (m := { m with lastAborted := true }) hf]
        rw [if_pos hlen]
      · rw [if_neg hlen]
        rw [abort_absent hf, if_neg hlen]
    | some i =>
      have hlt := findIdxReq_lt_length hf
      have hio := indexOfReq_eq_coe hf
      by_cases hcond : indexOfReq m.activeRequests r = (m.activeRequests.length : Int) - 1
      · have h1 : abortRequest m (some r)
            = cleanupRequest ({ m with lastAborted := true } : Manager) (some r) := by
          rw [abortRequest_some, if_pos hcond]
        have hf2 : findIdxReq r.id (abortRequest m (some r)).activeRequests = none := by
          rw [h1, cleanup_found (m := { m with lastAborted := true }) hf]
          exact (findIdxReq_eq_none_iff _ _).2 (no_rid_after_erase hf hnodup)
        have hflag : (abortRequest m (some r)).lastAborted = true := by
          rw [h1, cleanup_found (m := { m with lastAborted := true }) hf]
        rw [abort_absent hf2]
        by_cases hlen2 : (abortRequest m (some r)).activeRequests.length = 0
        · rw [if_pos hlen2]
          exact set_lastAborted_self hflag
        · rw [if_neg hlen2]
      · have h1 : abortRequest m (some r) = cleanupRequest m (some r) := by
          rw [abortRequest_some, if_neg hcond]
        have hf2 : findIdxReq r.id (abortRequest m (some r)).activeRequests = none := by
          rw [h1, cleanup_found hf]
          exact (findIdxReq_eq_none_iff _ _).2 (no_rid_after_erase hf hnodup)
        have hlen2 : ¬ (abortRequest m (some r)).activeRequests.length = 0 := by
          rw [h1, cleanup_found hf]
          intro hzero
          apply hcond
          rw [hio]
          have hmap : ((m.activeRequests.map
              (fun a => if a.id == r.id then { a with loading := false } else a))).length
              = m.activeRequests.length := List.length_map _ _
          have herase := List.length_eraseIdx_of_lt (by rw [hmap]; exact hlt)
          simp only [hmap] at herase
          simp only [herase] at hzero
          have hone : m.activeRequests.length = 1 := by omega
          have hi0 : i = 0 := by omega
          rw [hone, hi0]
          decide
        rw [abort_absent hf2, if_neg hlen2]

/-- A concrete request object used by witnesses. -/
def exReq : Request :=
  { id := 7, loading := true,
    options := { cache := false, callbackKey := "callback", callbackValue := "cb",
                 sync := false, url := "u" },
    scriptSrc := "u" }

/-- C8 witness: on a fresh manager (empty active set), cleanup of a stale
request is a no-op and a double abort equals a single abort. -/
theorem c8_witness :
    cleanupRequest (initManager exRand) (some exReq) = initManager exRand
    ∧ abortRequest (abortRequest (initManager exRand) (some exReq)) (some exReq)
      = abortRequest (initManager exRand) (some exReq) :=
  ⟨(c8_cleanup_idempotent (initManager exRand) exReq (by decide)).1 (by decide),
   (c8_cleanup_idempotent (initManager exRand) exReq (by decide)).2⟩

/-! ### Helper lemmas: abort and the last-aborted flag -/

lemma cleanup_lastAborted (m : Manager) (x : Option Request) :
    (cleanupRequest m x).lastAborted = m.lastAborted := by
  cases x with
  | none => rfl
  | some r =>
    cases hf : findIdxReq r.id m.activeRequests with
    | none => rw [cleanup_noop hf]
    | some i => rw [cleanup_found hf]

lemma cleanup_events (m : Manager) (x : Option Request) :
    (cleanupRequest m x).events = m.events := by
  cases x with
  | none => rfl
  | some r =>
    cases hf : findIdxReq r.id m.activeRequests with
    | none => rw [cleanup_noop hf]
    | some i => rw [cleanup_found hf]

lemma abort_none_last {m : Manager} {l : Request}
    (hl : m.activeRequests.getLast? = some l) :
    abortRequest m none = abortRequest m (some l) := by
  unfold abortRequest
  rw [hl]

lemma abort_flag (m : Manager) (r : Request) :
    (abortRequest m (some r)).lastAborted =
      (if indexOfReq m.activeRequests r = (m.activeRequests.length : Int) - 1
       then true else m.lastAborted) := by
  rw [abortRequest_some]
  by_cases hcond : indexOfReq m.activeRequests r = (m.activeRequests.length : Int) - 1
  · rw [if_pos hcond, if_pos hcond, cleanup_lastAborted]
  · rw [if_neg hcond, if_neg hcond, cleanup_lastAborted]

lemma findIdxReq_last_iff (rid : Nat) :
    ∀ (l : List Request), (l.map Request.id).Nodup → l ≠ [] →
      (findIdxReq rid l = some (l.length - 1) ↔
        ∃ a, l.getLast? = some a ∧ a.id = rid) := by
  intro l
  induction l with
  | nil => intro _ h; exact absurd rfl h
  | cons x l ih =>
    intro hnodup _
    have hnd := hnodup
    rw [List.map_cons, List.nodup_cons] at hnd
    cases l with
    | nil =>
      by_cases hx : x.id = rid
      · simp [findIdxReq, hx]
      · simp [findIdxReq, hx]
    | cons y l2 =>
      have hlast : (x :: y :: l2).getLast? = (y :: l2).getLast? := rfl
      by_cases hx : x.id = rid
      · constructor
        · intro h
          exfalso
          have h0 : (0 : Nat) = (x :: y :: l2).length - 1 := by
            simpa [findIdxReq, hx] using h
          simp only [List.length_cons] at h0
          omega
        · rintro ⟨a, ha, haid⟩
          exfalso
          rw [hlast] at ha
          have hmem := List.mem_of_mem_getLast? ha
          exact hnd.1 (by rw [hx, ← haid]; exact List.mem_map.2 ⟨a, hmem, rfl⟩)
      · have hstep : findIdxReq rid (x :: y :: l2)
            = (findIdxReq rid (y :: l2)).map (· + 1) := by
          simp [findIdxReq, hx]
        have hlen2 : (x :: y :: l2).length - 1 = ((y :: l2).length - 1) + 1 := by
          simp only [List.length_cons]
          omega
        rw [hstep, hlast, hlen2, ← ih hnd.2 (by simp)]
        constructor
        · intro h
          cases hf : findIdxReq rid (y :: l2) with
          | none => rw [hf] at h; exact absurd h (by simp)
          | some j =>
            rw [hf] at h
            have hj : j + 1 = (y :: l2).length - 1 + 1 := by simpa using h
            have hjj : j = (y :: l2).length - 1 := by omega
            rw [hjj]
        · intro h
          rw [h]
          rfl

lemma last_cond_iff (l : List Request) (r : Request)
    (hnodup : (l.map Request.id).Nodup) :
    (indexOfReq l r = (l.length : Int) - 1) ↔
      ((∃ a, l.getLast? = some a ∧ a.id = r.id) ∨ l = []) := by
  cases hl : l with
  | nil =>
    constructor
    · intro _; exact Or.inr rfl
    · intro _
      rw [indexOfReq_eq_neg_one (by simp [findIdxReq])]
      decide
  | cons x l2 =>
    rw [← hl]
    have hne : l ≠ [] := by rw [hl]; simp
    have hlen : 1 ≤ l.length := by rw [hl]; simp
    cases hf : findIdxReq r.id l with
    | none =>
      rw [indexOfReq_eq_neg_one hf]
      constructor
      · intro h; exfalso; omega
      · rintro (⟨a, ha, haid⟩ | h)
        · exfalso
          have hmem := List.mem_of_mem_getLast? ha
          exact ((findIdxReq_eq_none_iff _ _).1 hf a hmem) haid
        · exact absurd h hne
    | some i =>
      rw [indexOfReq_eq_coe hf]
      constructor
      · intro h
        refine Or.inl ?_
        have hi : i = l.length - 1 := by omega
        exact ((findIdxReq_last_iff r.id l hnodup hne).1 (by rw [← hi]; exact hf))
      · rintro (hex | h)
        · have := (findIdxReq_last_iff r.id l hnodup hne).2 hex
          rw [hf] at this
          have hi : i = l.length - 1 := by simpa using this
          omega
        · exact absurd h hne

/-! ### C4 -/

/-- C4 counterexample: on a manager with an empty active set and the
last-aborted flag clear, aborting a supplied stale request (not in the
active set — indeed there are no active requests) still sets the
last-aborted flag, because `indexOf` returns `-1` and `length - 1` is also
`-1`; this contradicts the claim that the flag is set only when the target
is the most-recently-issued active request. -/
theorem c4_counterexample :
    (initManager exRand).activeRequests = [] ∧
    (initManager exRand).lastAborted = false ∧
    (abortRequest (initManager exRand) (some exReq)).lastAborted = true :=
  ⟨rfl, rfl, rfl⟩

/-- C4 (amended): with no argument, `abortRequest` is a no-op on an empty
active set and otherwise targets the most recently issued active request;
the last-aborted flag becomes true exactly when the targeted request is the
most-recently-issued active request, or when a request argument is supplied
while the active set is empty (`indexOf` gives `-1` and `length - 1` is
`-1`), keeping its old value otherwise; and an abort never emits any
notification (in particular no `complete`). -/
theorem c4_abort_behavior (m : Manager)
    (hnodup : (m.activeRequests.map Request.id).Nodup) :
    (m.activeRequests = [] → abortRequest m none = m)
    ∧ (∀ l, m.activeRequests.getLast? = some l →
        abortRequest m none = abortRequest m (some l))
    ∧ (∀ r, (abortRequest m (some r)).lastAborted = true ↔
        (m.lastAborted = true
          ∨ (∃ a, m.activeRequests.getLast? = some a ∧ a.id = r.id)
          ∨ m.activeRequests = []))
    ∧ (∀ x, (abortRequest m x).events = m.events) := by
  refine ⟨?_, ?_, ?_, ?_⟩
  · intro h
    unfold abortRequest
    rw [h]
    rfl
  · intro l hl
    exact abort_none_last hl
  · intro r
    rw [show ((abortRequest m (some r)).lastAborted = true
          ↔ (if indexOfReq m.activeRequests r = (m.activeRequests.length : Int) - 1
             then true else m.lastAborted) = true) from by rw [abort_flag]]
    by_cases hcond : indexOfReq m.activeRequests r = (m.activeRequests.length : Int) - 1
    · rw [if_pos hcond]
      have := (last_cond_iff m.activeRequests r hnodup).1 hcond
      constructor
      · intro _
        rcases this with h | h
        · exact Or.inr (Or.inl h)
        · exact Or.inr (Or.inr h)
      · intro _; rfl
    · rw [if_neg hcond]
      have hnot := fun h => hcond ((last_cond_iff m.activeRequests r hnodup).2 h)
      constructor
      · intro h; exact Or.inl h
      · rintro (h | h | h)
        · exact h
        · exact absurd (Or.inl h) hnot
        · exact absurd (Or.inr h) hnot
  · intro x
    cases x with
    | none =>
      cases hl : m.activeRequests.getLast? with
      | none =>
        unfold abortRequest
        rw [hl]
        rfl
      | some l =>
        rw [abort_none_last hl, abortRequest_some, cleanup_events]
        split <;> rfl
    | some r =>
      rw [abortRequest_some, cleanup_events]
      split <;> rfl

/-- C4 witness: the amended theorem applied to a fresh manager (empty
active set, flag clear, no events). -/
theorem c4_witness :
    ((initManager exRand).activeRequests.map Request.id).Nodup ∧
    (((initManager exRand).activeRequests = [] →
        abortRequest (initManager exRand) none = initManager exRand)
     ∧ (∀ l, (initManager exRand).activeRequests.getLast? = some l →
         abortRequest (initManager exRand) none = abortRequest (initManager exRand) (some l))
     ∧ (∀ r, (abortRequest (initManager exRand) (some r)).lastAborted = true ↔
         ((initManager exRand).lastAborted = true
           ∨ (∃ a, (initManager exRand).activeRequests.getLast? = some a ∧ a.id = r.id)
           ∨ (initManager exRand).activeRequests = []))
     ∧ (∀ x, (abortRequest (initManager exRand) x).events = (initManager exRand).events)) :=
  ⟨by decide, c4_abort_behavior (initManager exRand) (by decide)⟩

/-! ### Helper lemmas: upsert and successful request generation -/

lemma mem_upsert_self {α : Type} (l : List (String × α)) (k : String) (v : α) :
    (k, v) ∈ upsert l k v := by
  unfold upsert
  split
  case isTrue h =>
    obtain ⟨p, hp, hpk⟩ := List.any_eq_true.1 h
    refine List.mem_map.2 ⟨p, hp, ?_⟩
    rw [if_pos hpk]
  case isFalse h => simp

lemma mem_upsert_of_ne {α : Type} {l : List (String × α)} {k0 : String} {v0 : α}
    (k : String) (v : α) (hmem : (k0, v0) ∈ l) (hne : k0 ≠ k) :
    (k0, v0) ∈ upsert l k v := by
  unfold upsert
  split
  · refine List.mem_map.2 ⟨(k0, v0), hmem, ?_⟩
    simp [hne]
  · exact List.mem_append_left _ hmem

lemma upsert_key_val {α : Type} {l : List (String × α)} {k : String} {v w : α}
    (h : (k, w) ∈ upsert l k v) : w = v := by
  unfold upsert at h
  split at h
  case isTrue hT =>
    obtain ⟨p, hp, hpe⟩ := List.mem_map.1 h
    by_cases hpk : (p.1 == k) = true
    · rw [if_pos hpk] at hpe
      exact ((Prod.ext_iff.1 hpe).2).symm
    · rw [if_neg hpk] at hpe
      rw [hpe] at hpk
      simp at hpk
  case isFalse hF =>
    rcases List.mem_append.1 h with h2 | h2
    · exact absurd (List.any_eq_true.2 ⟨(k, w), h2, by simp⟩) hF
    · have h3 := List.mem_singleton.1 h2
      exact (Prod.ext_iff.1 h3).2

/-- Projection lemmas for the states built by `generateRequest`; each is
definitional and lets proofs avoid deep unfolding of nested states. -/
lemma genMC_callbackValue (m : Manager) : (genMC m).callbackValue = m.callbackValue := rfl

lemma genMC_window (m : Manager) : (genMC m).window = m.window := rfl

lemma genMC_activeRequests (m : Manager) : (genMC m).activeRequests = m.activeRequests := rfl

lemma genMC_events (m : Manager) : (genMC m).events = m.events := rfl

lemma genMC_scripts (m : Manager) : (genMC m).scripts = m.scripts := rfl

lemma genMC_loading (m : Manager) : (genMC m).loading = true := rfl

lemma genMC_lastAborted (m : Manager) : (genMC m).lastAborted = false := rfl

lemma genMC_nextId (m : Manager) : (genMC m).nextId = m.nextId := rfl

lemma genReq_id (m : Manager) : (genReq m).id = m.nextId := rfl

lemma genReq_loading (m : Manager) : (genReq m).loading = true := rfl

lemma genOut_callbackValue (m : Manager) : (genOut m).callbackValue = m.callbackValue := rfl

lemma genOut_nextId (m : Manager) : (genOut m).nextId = m.nextId + 1 := rfl

lemma genOut_loading (m : Manager) : (genOut m).loading = true := rfl

lemma genOut_lastAborted (m : Manager) : (genOut m).lastAborted = false := rfl

lemma genOut_lastRequest (m : Manager) : (genOut m).lastRequest = some (genReq m) := rfl

lemma genOut_window (m : Manager) :
    (genOut m).window = upsert (genMC m).window (genMC m).callbackValue (genReq m).id := rfl

lemma genOut_activeRequests (m : Manager) :
    (genOut m).activeRequests = (genMC m).activeRequests ++ [genReq m] := rfl

lemma genOut_events (m : Manager) :
    (genOut m).events = (genMC m).events ++ [Emitted.sent (genReq m).id] := rfl

lemma generateRequest_ok_elim {m m' : Manager} {r : Request}
    (h : generateRequest m = .ok (m', r)) : m' = genOut m ∧ r = genReq m := by
  unfold generateRequest at h
  split at h
  · exact absurd h (by simp)
  · split at h
    · exact absurd h (by simp)
    · injection h with h1
      exact ⟨(congrArg Prod.fst h1).symm, (congrArg Prod.snd h1).symm⟩

/-! ### C2 -/

/-- The manager used by the C2/C3/C9 scenarios: fresh element (so its
`callbackValue` is the auto-generated token) with only the url set. -/
def c2mgr : Manager := { initManager exRand with url := "https://api.example.com/data" }

/-- The manager after two consecutive caught `generateRequest` calls. -/
def c2after : Manager := tryGenerateRequest (tryGenerateRequest c2mgr)

/-- C2 counterexample: on a single manager whose callback value is the
auto-generated default, two consecutive requests are concurrently active
(ids 0 and 1, both loading), yet the global namespace holds exactly one
callback entry — registered to the second request — because `callbackValue`
is generated once per element, not per request.  So concurrently active
auto-generated requests on the same manager do not get distinct global
callback names, and the first request has no live callback of its own. -/
theorem c2_counterexample :
    c2mgr.callbackValue = (defaultCallbackValue exRand 0).1
    ∧ c2after.activeRequests.map Request.id = [0, 1]
    ∧ (∀ a ∈ c2after.activeRequests, a.loading = true)
    ∧ c2after.window = [(c2mgr.callbackValue, 1)] := by
  refine ⟨by decide, by decide, by decide, by decide⟩

/-- C2 (amended): two consecutive successful requests on the same manager
are both registered under the one per-manager `callbackValue` (which
`generateRequest` never changes): the first request's registration is
present after the first call, but after the second call the single entry
under that name belongs to the second request and the first request — still
active, with a distinct identity — no longer has any registration. -/
theorem c2_shared_callback_name (m m1 m2 : Manager) (r1 r2 : Request)
    (h1 : generateRequest m = .ok (m1, r1))
    (h2 : generateRequest m1 = .ok (m2, r2)) :
    m1.callbackValue = m.callbackValue
    ∧ (m.callbackValue, r1.id) ∈ m1.window
    ∧ (m.callbackValue, r2.id) ∈ m2.window
    ∧ r1.id ≠ r2.id
    ∧ (m.callbackValue, r1.id) ∉ m2.window
    ∧ r1 ∈ m2.activeRequests ∧ r2 ∈ m2.activeRequests := by
  obtain ⟨hm1, hr1⟩ := generateRequest_ok_elim h1
  obtain ⟨hm2, hr2⟩ := generateRequest_ok_elim h2
  subst hm1 hr1 hm2 hr2
  refine ⟨genOut_callbackValue m, ?_, ?_, ?_, ?_, ?_, ?_⟩
  · rw [genOut_window, genMC_callbackValue]
    exact mem_upsert_self _ _ _
  · rw [genOut_window, genMC_callbackValue, genOut_callbackValue]
    exact mem_upsert_self _ _ _
  · intro h
    rw [genReq_id, genReq_id, genOut_nextId] at h
    omega
  · intro hmem
    rw [genOut_window, genMC_callbackValue, genOut_callbackValue] at hmem
    have hval := upsert_key_val hmem
    rw [genReq_id, genReq_id, genOut_nextId] at hval
    omega
  · rw [genOut_activeRequests, genMC_activeRequests, genOut_activeRequests]
    simp
  · rw [genOut_activeRequests]
    simp

/-- C2 witness: the amended theorem applied to two consecutive concrete
requests on the fresh manager. -/
theorem c2_witness :
    generateRequest c2mgr = .ok (genOut c2mgr, genReq c2mgr)
    ∧ generateRequest (genOut c2mgr) = .ok (genOut (genOut c2mgr), genReq (genOut c2mgr))
    ∧ ((genOut c2mgr).callbackValue = c2mgr.callbackValue
       ∧ (c2mgr.callbackValue, (genReq c2mgr).id) ∈ (genOut c2mgr).window
       ∧ (c2mgr.callbackValue, (genReq (genOut c2mgr)).id) ∈ (genOut (genOut c2mgr)).window
       ∧ (genReq c2mgr).id ≠ (genReq (genOut c2mgr)).id
       ∧ (c2mgr.callbackValue, (genReq c2mgr).id) ∉ (genOut (genOut c2mgr)).window
       ∧ genReq c2mgr ∈ (genOut (genOut c2mgr)).activeRequests
       ∧ genReq (genOut c2mgr) ∈ (genOut (genOut c2mgr)).activeRequests) :=
  ⟨rfl, rfl, c2_shared_callback_name c2mgr _ _ _ _ rfl rfl⟩

/-! ### Helper lemmas: the query entry list -/

lemma cb_pair_mem (m : Manager) (h : m.callbackKey ≠ "")
    (hg : m.callbackKey ≠ "_" ∨ m.cache = true) :
    (m.callbackKey, m.callbackValue) ∈ queryEntriesList m := by
  have hbeq : (m.callbackKey == "") = false := by simpa using h
  by_cases hc : m.cache = true
  · simp only [queryEntriesList, hbeq, Bool.false_eq_true, if_false, hc, if_true]
    exact mem_upsert_self _ _ _
  · rcases hg with hg | hg
    · have hcf : m.cache = false := by simpa using hc
      simp only [queryEntriesList, hbeq, Bool.false_eq_true, if_false, hcf]
      exact mem_upsert_of_ne _ _ (mem_upsert_self _ _ _) hg
    · exact absurd hg hc

lemma buster_mem (m : Manager) (h : m.cache = false) :
    ("_", (newGuid true m.rand m.randSeq).1) ∈ queryEntriesList m := by
  simp only [queryEntriesList, h, Bool.false_eq_true, if_false]
  exact mem_upsert_self _ _ _

lemma persist_mem (m : Manager) (k0 v0 : String) (hm : (k0, v0) ∈ m.params)
    (h1 : k0 ≠ m.callbackKey ∨ m.callbackKey = "")
    (h2 : k0 ≠ "_" ∨ m.cache = true) :
    (k0, v0) ∈ queryEntriesList m := by
  have hps : (k0, v0) ∈
      (if m.callbackKey == "" then m.params
       else upsert m.params m.callbackKey m.callbackValue) := by
    by_cases hk : m.callbackKey = ""
    · simp only [hk]
      simpa using hm
    · have hbeq : (m.callbackKey == "") = false := by simpa using hk
      simp only [hbeq, Bool.false_eq_true, if_false]
      rcases h1 with h1 | h1
      · exact mem_upsert_of_ne _ _ hm h1
      · exact absurd h1 hk
  by_cases hc : m.cache = true
  · simpa only [queryEntriesList, hc, if_true] using hps
  · have hcf : m.cache = false := by simpa using hc
    rcases h2 with h2 | h2
    · simp only [queryEntriesList, hcf, Bool.false_eq_true, if_false]
      exact mem_upsert_of_ne _ _ hps h2
    · exact absurd h2 hc

lemma genMB_callbackKey (m : Manager) : (genMB m).callbackKey = m.callbackKey := rfl

lemma genMB_callbackValue (m : Manager) : (genMB m).callbackValue = m.callbackValue := rfl

lemma genMB_cache (m : Manager) : (genMB m).cache = m.cache := rfl

lemma genMB_url (m : Manager) : (genMB m).url = m.url := rfl

lemma genMB_params (m : Manager) : (genMB m).params = queryEntriesList (genPre m) := rfl

lemma genOut_params (m : Manager) : (genOut m).params = queryEntriesList (genMB m) := rfl

lemma genPre_params (m : Manager) : (genPre m).params = m.params := rfl

lemma genPre_callbackKey (m : Manager) : (genPre m).callbackKey = m.callbackKey := rfl

lemma genPre_callbackValue (m : Manager) : (genPre m).callbackValue = m.callbackValue := rfl

lemma genPre_cache (m : Manager) : (genPre m).cache = m.cache := rfl

/-! ### C9 -/

/-- C9: evaluating the `_queryString` getter writes through to the
configuration's `params` object: afterwards it holds the callback pair
(when the callback key is non-empty and not itself overwritten by the `_`
cache-buster), the `_`-keyed cache-busting token exactly generated from the
random stream (when cache is disabled), and every previously configured
entry whose key is not overridden; and since `generateRequest` evaluates
the getter, a successful request leaves the callback pair in the
configuration's `params` for later requests. -/
theorem c9_params_mutation (m : Manager) :
    (m.callbackKey ≠ "" → (m.callbackKey ≠ "_" ∨ m.cache = true) →
      (m.callbackKey, m.callbackValue) ∈ ((queryEntries m).2).params)
    ∧ (m.cache = false →
        ("_", (newGuid true m.rand m.randSeq).1) ∈ ((queryEntries m).2).params)
    ∧ (∀ k0 v0, (k0, v0) ∈ m.params → (k0 ≠ m.callbackKey ∨ m.callbackKey = "") →
        (k0 ≠ "_" ∨ m.cache = true) → (k0, v0) ∈ ((queryEntries m).2).params)
    ∧ (∀ m' r, generateRequest m = .ok (m', r) → m.callbackKey ≠ "" →
        (m.callbackKey ≠ "_" ∨ m.cache = true) →
        (m.callbackKey, m.callbackValue) ∈ m'.params) := by
  refine ⟨?_, ?_, ?_, ?_⟩
  · intro h hg
    exact cb_pair_mem m h hg
  · intro h
    exact buster_mem m h
  · intro k0 v0 hm h1 h2
    exact persist_mem m k0 v0 hm h1 h2
  · intro m' r hok h hg
    obtain ⟨hm', _⟩ := generateRequest_ok_elim hok
    subst hm'
    rw [genOut_params]
    have := cb_pair_mem (genMB m)
      (by rw [genMB_callbackKey]; exact h)
      (by rw [genMB_callbackKey, genMB_cache]; exact hg)
    rw [genMB_callbackKey, genMB_callbackValue] at this
    exact this

/-- C9 witness: the theorem applied to a fresh manager with the default
callback key, cache disabled and a url set, every hypothesis discharged. -/
theorem c9_witness :
    c2mgr.callbackKey ≠ ""
    ∧ c2mgr.cache = false
    ∧ (c2mgr.callbackKey, c2mgr.callbackValue) ∈ ((queryEntries c2mgr).2).params
    ∧ ("_", (newGuid true c2mgr.rand c2mgr.randSeq).1) ∈ ((queryEntries c2mgr).2).params
    ∧ (c2mgr.callbackKey, c2mgr.callbackValue) ∈ (genOut c2mgr).params :=
  ⟨by decide, rfl,
   (c9_params_mutation c2mgr).1 (by decide) (Or.inl (by decide)),
   (c9_params_mutation c2mgr).2.1 rfl,
   (c9_params_mutation c2mgr).2.2.2 (genOut c2mgr) (genReq c2mgr) rfl (by decide)
     (Or.inl (by decide))⟩

/-! ### C3 -/

lemma requestUrl_fst (mm : Manager) :
    (requestUrl mm).1 =
      if (queryString mm).1 = "" then mm.url else mm.url ++ "?" ++ (queryString mm).1 := by
  by_cases h : (queryString mm).1 = ""
  · simp only [requestUrl, h]
    simp
  · have hbeq : ((queryString mm).1 == "") = false := by simpa using h
    simp only [requestUrl, hbeq, Bool.false_eq_true, if_false, h]

lemma queryStringArr_fst (mm : Manager) :
    (queryStringArr mm).1
      = (queryEntriesList mm).map (fun p => p.1 ++ "=" ++ encodeURIComponent p.2) := rfl

/-- The manager whose params collide with the default callback key. -/
def c3mgr : Manager :=
  { initManager exRand with url := "u", params := [("callback", "foo")] }

/-- The manager used by the C3 witness: one ordinary configured parameter. -/
def c3wmgr : Manager :=
  { initManager exRand with url := "u", params := [("q", "x")] }

/-- C3 counterexample: with a configured parameter `callback=foo` and the
default callback key, the request succeeds but its query string does not
contain the configured pair `callback=foo` — the callback assignment
overwrote it — contradicting the claim that the query string contains
every configured parameter as key=value. -/
theorem c3_counterexample :
    ("callback", "foo") ∈ c3mgr.params
    ∧ c3mgr.callbackKey = "callback"
    ∧ generateRequest c3mgr = .ok (genOut c3mgr, genReq c3mgr)
    ∧ "callback=foo" ∉ (queryStringArr (genMB c3mgr)).1
    ∧ ("callback=" ++ encodeURIComponent c3mgr.callbackValue) ∈ (queryStringArr (genMB c3mgr)).1 :=
  ⟨by decide, by decide, rfl, by decide, by decide⟩

/-- C3 (amended): for every successful `generateRequest`, the script src is
the url followed by the `&`-joined segment array of the second
`_queryString` evaluation, and that array contains: every configured
parameter whose key is not overridden by the callback key or by the `_`
cache-buster, as `key=encodeURIComponent(value)`; the callback pair (key
defaults to `"callback"` on a fresh element) when the callback key is
non-empty and not itself overridden by the cache-buster; and the `_`
cache-busting token freshly drawn from the random stream when caching is
disabled, while with caching enabled the entry list is exactly the
callback-augmented params, so no cache-buster is added. -/
theorem c3_query_string_contents (m : Manager) (m' : Manager) (r : Request)
    (hok : generateRequest m = .ok (m', r)) :
    (r.scriptSrc = if String.intercalate "&" ((queryStringArr (genMB m)).1) = ""
                   then m.url
                   else m.url ++ "?" ++ String.intercalate "&" ((queryStringArr (genMB m)).1))
    ∧ (∀ k v, (k, v) ∈ m.params → (k ≠ m.callbackKey ∨ m.callbackKey = "") →
        (k ≠ "_" ∨ m.cache = true) →
        (k ++ "=" ++ encodeURIComponent v) ∈ (queryStringArr (genMB m)).1)
    ∧ (m.callbackKey ≠ "" → (m.callbackKey ≠ "_" ∨ m.cache = true) →
        (m.callbackKey ++ "=" ++ encodeURIComponent m.callbackValue)
          ∈ (queryStringArr (genMB m)).1)
    ∧ (m.cache = false →
        ("_=" ++ encodeURIComponent ((newGuid true m.rand (genMB m).randSeq).1))
          ∈ (queryStringArr (genMB m)).1)
    ∧ (m.cache = true → queryEntriesList (genMB m)
        = (if (genMB m).callbackKey == "" then (genMB m).params
           else upsert (genMB m).params m.callbackKey m.callbackValue))
    ∧ (∀ r0, (initManager r0).callbackKey = "callback") := by
  obtain ⟨hm', hr⟩ := generateRequest_ok_elim hok
  subst hm' hr
  refine ⟨?_, ?_, ?_, ?_, ?_, fun r0 => rfl⟩
  · show (requestUrl (genMB m)).1 = _
    rw [requestUrl_fst, genMB_url]
    rfl
  · intro k v hm h1 h2
    rw [queryStringArr_fst]
    refine List.mem_map.2 ⟨(k, v), ?_, rfl⟩
    refine persist_mem (genMB m) k v ?_ ?_ ?_
    · rw [genMB_params]
      refine persist_mem (genPre m) k v ?_ ?_ ?_
      · rw [genPre_params]; exact hm
      · rw [genPre_callbackKey]; exact h1
      · rw [genPre_cache]; exact h2
    · rw [genMB_callbackKey]; exact h1
    · rw [genMB_cache]; exact h2
  · intro h hg
    rw [queryStringArr_fst]
    refine List.mem_map.2 ⟨(m.callbackKey, m.callbackValue), ?_, rfl⟩
    have := cb_pair_mem (genMB m)
      (by rw [genMB_callbackKey]; exact h)
      (by rw [genMB_callbackKey, genMB_cache]; exact hg)
    rw [genMB_callbackKey, genMB_callbackValue] at this
    exact this
  · intro h
    rw [queryStringArr_fst]
    refine List.mem_map.2 ⟨("_", (newGuid true m.rand (genMB m).randSeq).1), ?_, rfl⟩
    have := buster_mem (genMB m) (by rw [genMB_cache]; exact h)
    exact this
  · intro h
    have hc2 : (genMB m).cache = true := by rw [genMB_cache]; exact h
    unfold queryEntriesList
    rw [hc2, genMB_callbackKey, genMB_callbackValue]
    simp

/-- C3 witness: the amended theorem applied to a concrete manager with one
configured parameter, every hypothesis discharged. -/
theorem c3_witness :
    generateRequest c3wmgr = .ok (genOut c3wmgr, genReq c3wmgr)
    ∧ ("q", "x") ∈ c3wmgr.params
    ∧ c3wmgr.callbackKey ≠ ""
    ∧ c3wmgr.cache = false
    ∧ ("q=" ++ encodeURIComponent "x") ∈ (queryStringArr (genMB c3wmgr)).1
    ∧ (c3wmgr.callbackKey ++ "=" ++ encodeURIComponent c3wmgr.callbackValue)
        ∈ (queryStringArr (genMB c3wmgr)).1
    ∧ ("_=" ++ encodeURIComponent ((newGuid true c3wmgr.rand (genMB c3wmgr).randSeq).1))
        ∈ (queryStringArr (genMB c3wmgr)).1
    ∧ (genReq c3wmgr).scriptSrc =
        (if String.intercalate "&" ((queryStringArr (genMB c3wmgr)).1) = ""
         then c3wmgr.url
         else c3wmgr.url ++ "?" ++ String.intercalate "&" ((queryStringArr (genMB c3wmgr)).1)) :=
  ⟨rfl, by decide, by decide, rfl,
   (c3_query_string_contents c3wmgr (genOut c3wmgr) (genReq c3wmgr) rfl).2.1
     "q" "x" (by decide) (Or.inl (by decide)) (Or.inl (by decide)),
   (c3_query_string_contents c3wmgr (genOut c3wmgr) (genReq c3wmgr) rfl).2.2.1
     (by decide) (Or.inl (by decide)),
   (c3_query_string_contents c3wmgr (genOut c3wmgr) (genReq c3wmgr) rfl).2.2.2.1 rfl,
   (c3_query_string_contents c3wmgr (genOut c3wmgr) (genReq c3wmgr) rfl).1⟩

/-! ### Helper lemmas: response handling and the loading flag -/

lemma findIdxReq_isSome_of_mem {l : List Request} {r : Request} (hmem : r ∈ l) :
    ∃ i, findIdxReq r.id l = some i := by
  cases hf : findIdxReq r.id l with
  | none => exact absurd rfl ((findIdxReq_eq_none_iff _ _).1 hf r hmem)
  | some i => exact ⟨i, rfl⟩

lemma any_loading_of_map {rid : Nat} {l : List Request}
    (h : (l.map (fun a => if a.id == rid then { a with loading := false } else a)).any
          (fun a => a.loading) = true) :
    l.any (fun a => a.loading) = true := by
  obtain ⟨a, ha, hl⟩ := List.any_eq_true.1 h
  obtain ⟨b, hb, rfl⟩ := List.mem_map.1 ha
  refine List.any_eq_true.2 ⟨b, hb, ?_⟩
  by_cases hbr : (b.id == rid) = true
  · rw [if_pos hbr] at hl
    simp at hl
  · rw [if_neg hbr] at hl
    exact hl

lemma any_loading_eraseIdx {rid : Nat} :
    ∀ {l : List Request} {i : Nat}, findIdxReq rid l = some i →
      (((l.map (fun a => if a.id == rid then { a with loading := false } else a)).eraseIdx i).any
          (fun a => a.loading))
      = ((l.map (fun a => if a.id == rid then { a with loading := false } else a)).any
          (fun a => a.loading)) := by
  intro l
  induction l with
  | nil => intro i h; simp [findIdxReq] at h
  | cons x l ih =>
    intro i h
    by_cases hx : x.id = rid
    · have h0 : i = 0 := by simpa [findIdxReq, hx] using h.symm
      subst h0
      rw [List.map_cons, List.eraseIdx_cons_zero]
      have hfx : (if x.id == rid then { x with loading := false } else x).loading = false := by
        simp [hx]
      rw [List.any_cons, hfx]
      simp
    · have h' := h
      simp [findIdxReq, hx] at h'
      obtain ⟨j, hj, hij⟩ := h'
      subst hij
      rw [List.map_cons, List.eraseIdx_cons_succ, List.any_cons, List.any_cons, ih hj]

/-- The aggregate loading flag equals "some active request is loading". -/
def LoadingInv (m : Manager) : Prop :=
  m.loading = m.activeRequests.any (fun a => a.loading)

lemma cleanup_loading_inv (m : Manager) (x : Option Request) (hinv : LoadingInv m) :
    LoadingInv (cleanupRequest m x) := by
  cases x with
  | none => exact hinv
  | some r =>
    cases hf : findIdxReq r.id m.activeRequests with
    | none => rw [cleanup_noop hf]; exact hinv
    | some i =>
      rw [cleanup_found hf]
      unfold LoadingInv
      show (if _ then m.loading else false) = _
      rw [any_loading_eraseIdx hf]
      by_cases hLL : (m.activeRequests.map
          (fun a => if a.id == r.id then { a with loading := false } else a)).any
          (fun a => a.loading) = true
      · rw [if_pos hLL, hLL]
        rw [hinv, any_loading_of_map hLL]
      · have hLL' : (m.activeRequests.map
            (fun a => if a.id == r.id then { a with loading := false } else a)).any
            (fun a => a.loading) = false := by simpa using hLL
        rw [if_neg hLL, hLL']

lemma handleResponse_eq (m : Manager) (r : Request) (d : String) :
    handleResponse m r d =
      discardRequest { m with lastResponse := some d, lastError := none,
                              events := m.events ++ [Emitted.response d] } r := rfl

lemma discard_lastResponse (m : Manager) (r : Request) :
    (discardRequest m r).lastResponse = (cleanupRequest m (some r)).lastResponse := rfl

lemma discard_lastError (m : Manager) (r : Request) :
    (discardRequest m r).lastError = (cleanupRequest m (some r)).lastError := rfl

lemma discard_activeRequests (m : Manager) (r : Request) :
    (discardRequest m r).activeRequests = (cleanupRequest m (some r)).activeRequests := rfl

lemma discard_loading (m : Manager) (r : Request) :
    (discardRequest m r).loading = (cleanupRequest m (some r)).loading := rfl

lemma discard_events (m : Manager) (r : Request) :
    (discardRequest m r).events
      = (cleanupRequest m (some r)).events ++ [Emitted.complete r.id] := rfl

lemma cleanup_lastResponse (m : Manager) (x : Option Request) :
    (cleanupRequest m x).lastResponse = m.lastResponse := by
  cases x with
  | none => rfl
  | some r =>
    cases hf : findIdxReq r.id m.activeRequests with
    | none => rw [cleanup_noop hf]
    | some i => rw [cleanup_found hf]

lemma cleanup_lastError (m : Manager) (x : Option Request) :
    (cleanupRequest m x).lastError = m.lastError := by
  cases x with
  | none => rfl
  | some r =>
    cases hf : findIdxReq r.id m.activeRequests with
    | none => rw [cleanup_noop hf]
    | some i => rw [cleanup_found hf]

/-! ### C5 -/

/-- C5: when the registered callback of an active request fires with payload
data, the manager records the payload as last response, clears last error,
emits `response` (with the payload passed at the dispatch site) and then
exactly one `complete` for that request, removes the request from the
active set, and the aggregate loading flag again equals "some remaining
active request is loading".  Ids in the active set are assumed distinct (as
guaranteed for requests created by the manager) and the loading invariant
is assumed to hold before, as it does for every reachable state. -/
theorem c5_response_handling (m : Manager) (r : Request) (d : String)
    (hmem : r ∈ m.activeRequests)
    (hids : (m.activeRequests.map Request.id).Nodup)
    (hinv : m.loading = m.activeRequests.any (fun a => a.loading)) :
    (handleResponse m r d).lastResponse = some d
    ∧ (handleResponse m r d).lastError = none
    ∧ (handleResponse m r d).events
        = m.events ++ [Emitted.response d, Emitted.complete r.id]
    ∧ (∀ a ∈ (handleResponse m r d).activeRequests, a.id ≠ r.id)
    ∧ (handleResponse m r d).loading
        = (handleResponse m r d).activeRequests.any (fun a => a.loading) := by
  obtain ⟨i, hf⟩ := findIdxReq_isSome_of_mem hmem
  refine ⟨?_, ?_, ?_, ?_, ?_⟩
  · rw [handleResponse_eq, discard_lastResponse, cleanup_lastResponse]
  · rw [handleResponse_eq, discard_lastError, cleanup_lastError]
  · rw [handleResponse_eq, discard_events, cleanup_events]
    simp
  · rw [handleResponse_eq, discard_activeRequests]
    intro a ha
    have hf1 : findIdxReq r.id
        ({ m with
            lastResponse := some d
            lastError := none
            events := m.events ++ [Emitted.response d] } : Manager).activeRequests
        = some i := hf
    rw [cleanup_found hf1] at ha
    exact no_rid_after_erase hf hids a ha
  · rw [handleResponse_eq, discard_loading, discard_activeRequests]
    exact cleanup_loading_inv
      { m with
          lastResponse := some d
          lastError := none
          events := m.events ++ [Emitted.response d] } (some r) hinv

/-- A manager with one active request, used by lifecycle witnesses. -/
def c5mgr : Manager := genOut c2mgr

/-- C5 witness: the theorem applied to the manager holding one concrete
active request, every hypothesis discharged. -/
theorem c5_witness :
    genReq c2mgr ∈ c5mgr.activeRequests
    ∧ (c5mgr.activeRequests.map Request.id).Nodup
    ∧ c5mgr.loading = c5mgr.activeRequests.any (fun a => a.loading)
    ∧ (handleResponse c5mgr (genReq c2mgr) "payload").lastResponse = some "payload"
    ∧ (handleResponse c5mgr (genReq c2mgr) "payload").lastError = none
    ∧ (handleResponse c5mgr (genReq c2mgr) "payload").events
        = c5mgr.events ++ [Emitted.response "payload", Emitted.complete (genReq c2mgr).id]
    ∧ (∀ a ∈ (handleResponse c5mgr (genReq c2mgr) "payload").activeRequests,
        a.id ≠ (genReq c2mgr).id)
    ∧ (handleResponse c5mgr (genReq c2mgr) "payload").loading
        = (handleResponse c5mgr (genReq c2mgr) "payload").activeRequests.any
            (fun a => a.loading) := by
  have h := c5_response_handling c5mgr (genReq c2mgr) "payload"
    (by decide) (by decide) (by decide)
  exact ⟨by decide, by decide, by decide, h.1, h.2.1, h.2.2.1, h.2.2.2.1, h.2.2.2.2⟩

/-! ### C7 -/

lemma abort_none_noactive {m : Manager} (hl : m.activeRequests.getLast? = none) :
    abortRequest m none = m := by
  unfold abortRequest
  rw [hl]
  rfl

lemma gen_loading_inv (m : Manager) : LoadingInv (genOut m) := by
  unfold LoadingInv
  rw [genOut_loading, genOut_activeRequests]
  rw [List.any_append]
  simp [List.any_cons, genReq_loading]

lemma trygen_loading_inv (m : Manager) (hinv : LoadingInv m) :
    LoadingInv (tryGenerateRequest m) := by
  unfold tryGenerateRequest
  cases hg : generateRequest m with
  | ok p =>
    obtain ⟨h1, _⟩ := @generateRequest_ok_elim _ p.1 p.2 hg
    show LoadingInv p.1
    rw [h1]
    exact gen_loading_inv m
  | error e => exact hinv

/-- One observable operation of the manager, as fired by the caller or by
the browser environment (script load/error, callback invocation, timer). -/
inductive Step : Manager → Manager → Prop where
  | generate (m : Manager) (p : Manager × Request)
      (h : generateRequest m = .ok p) : Step m p.1
  | generateCaught (m : Manager) : Step m (tryGenerateRequest m)
  | abort (m : Manager) (x : Option Request) : Step m (abortRequest m x)
  | response (m : Manager) (r : Request) (d : String) : Step m (handleResponse m r d)
  | failed (m : Manager) (r : Request) (e : String) : Step m (handleError m r e)
  | loaded (m : Manager) (r : Request) (e : String) : Step m (handleLoad m r e)
  | cleanup (m : Manager) (x : Option Request) : Step m (cleanupRequest m x)
  | changed (m : Manager) (t : Nat) : Step m (requestOptionsChanged m t)
  | fire (m : Manager) : Step m (fireDebounce m)

/-- C7: the aggregate loading flag equals "some active request has
`loading = true`" in the initial state and is preserved by every operation
of the manager — request generation (raw or with the caught error),
aborting, response/error/load handling, cleanup, configuration change and
debounce firing. -/
theorem c7_loading_invariant :
    (∀ r0, LoadingInv (initManager r0))
    ∧ (∀ m m', LoadingInv m → Step m m' → LoadingInv m') := by
  constructor
  · intro r0
    rfl
  · intro m m' hinv hstep
    cases hstep with
    | generate p h =>
      obtain ⟨h1, _⟩ := @generateRequest_ok_elim _ p.1 p.2 h
      rw [h1]
      exact gen_loading_inv m
    | generateCaught => exact trygen_loading_inv m hinv
    | abort x =>
      cases x with
      | none =>
        cases hl : m.activeRequests.getLast? with
        | none =>
          rw [abort_none_noactive hl]
          exact hinv
        | some l =>
          rw [abort_none_last hl, abortRequest_some]
          split
          · exact cleanup_loading_inv _ _ hinv
          · exact cleanup_loading_inv _ _ hinv
      | some r =>
        rw [abortRequest_some]
        split
        · exact cleanup_loading_inv _ _ hinv
        · exact cleanup_loading_inv _ _ hinv
    | response r d =>
      exact cleanup_loading_inv
        { m with
            lastResponse := some d
            lastError := none
            events := m.events ++ [Emitted.response d] } (some r) hinv
    | failed r e =>
      exact cleanup_loading_inv
        { m with
            lastResponse := none
            lastError := some e
            events := m.events ++ [Emitted.error e] } (some r) hinv
    | loaded r e => exact hinv
    | cleanup x => exact cleanup_loading_inv m x hinv
    | changed t => exact hinv
    | fire =>
      unfold fireDebounce
      cases hp : m.pendingDeadline with
      | none => exact hinv
      | some t =>
        show LoadingInv
          (if ({ m with pendingDeadline := none } : Manager).auto = true
           then tryGenerateRequest { m with pendingDeadline := none }
           else { m with pendingDeadline := none })
        split
        · exact trygen_loading_inv _ hinv
        · exact hinv

/-- C7 witness: the invariant holds for a fresh manager and is carried
across a concrete operation. -/
theorem c7_witness :
    LoadingInv (initManager exRand)
    ∧ LoadingInv (abortRequest (initManager exRand) none) :=
  ⟨c7_loading_invariant.1 exRand,
   c7_loading_invariant.2 (initManager exRand) _
     (c7_loading_invariant.1 exRand) (Step.abort (initManager exRand) none)⟩

/-! ### C10 -/

/-- Number of `sent` notifications dispatched so far (i.e. of requests
generated). -/
def sentCount (m : Manager) : Nat :=
  (m.events.filter (fun e => match e with | Emitted.sent _ => true | _ => false)).length

lemma sentCount_genOut (m : Manager) : sentCount (genOut m) = sentCount m + 1 := by
  unfold sentCount
  rw [genOut_events, genMC_events, List.filter_append]
  simp

lemma burst_eq (ts : List Nat) :
    ∀ (m : Manager) (tl : Nat), ts.getLast? = some tl →
      ts.foldl requestOptionsChanged m
        = { m with pendingDeadline := some (tl + m.debounceDuration) } := by
  induction ts with
  | nil => intro m tl h; simp at h
  | cons t ts ih =>
    intro m tl h
    cases ts with
    | nil =>
      have htl : tl = t := by simpa using h.symm
      subst htl
      rfl
    | cons t2 ts2 =>
      have h2 : (t2 :: ts2).getLast? = some tl := h
      have := ih (requestOptionsChanged m t) tl h2
      rw [List.foldl_cons, this]
      rfl

/-- C10: a burst of configuration changes leaves exactly one pending
debounce deadline — that of the last change plus `debounceDuration` — and
changes nothing else (no request is generated during the burst); firing the
pending job empties the single job slot and generates at most one request
(at most one additional `sent` notification overall); with the auto flag
off, firing generates nothing at all. -/
theorem c10_debounce (m : Manager) (ts : List Nat) (tl : Nat)
    (hl : ts.getLast? = some tl) :
    ts.foldl requestOptionsChanged m
      = { m with pendingDeadline := some (tl + m.debounceDuration) }
    ∧ (ts.foldl requestOptionsChanged m).pendingDeadline
        = some (tl + m.debounceDuration)
    ∧ (fireDebounce (ts.foldl requestOptionsChanged m)).pendingDeadline = none
    ∧ sentCount (fireDebounce (ts.foldl requestOptionsChanged m)) ≤ sentCount m + 1
    ∧ (m.auto = false →
        fireDebounce (ts.foldl requestOptionsChanged m)
          = { m with pendingDeadline := none }) := by
  have hb := burst_eq ts m tl hl
  rw [hb]
  have hfire : fireDebounce ({ m with pendingDeadline := some (tl + m.debounceDuration) } : Manager)
      = (if m.auto = true
         then tryGenerateRequest { m with pendingDeadline := none }
         else ({ m with pendingDeadline := none } : Manager)) := rfl
  refine ⟨rfl, rfl, ?_, ?_, ?_⟩
  · rw [hfire]
    split
    · unfold tryGenerateRequest
      cases hg : generateRequest ({ m with pendingDeadline := none } : Manager) with
      | ok p =>
        obtain ⟨h1, _⟩ := @generateRequest_ok_elim _ p.1 p.2 hg
        show p.1.pendingDeadline = none
        rw [h1]
        rfl
      | error e => rfl
    · rfl
  · rw [hfire]
    split
    · unfold tryGenerateRequest
      cases hg : generateRequest ({ m with pendingDeadline := none } : Manager) with
      | ok p =>
        obtain ⟨h1, _⟩ := @generateRequest_ok_elim _ p.1 p.2 hg
        show sentCount p.1 ≤ sentCount m + 1
        rw [h1, sentCount_genOut]
        exact le_of_eq rfl
      | error e => exact Nat.le_succ_of_le (le_of_eq rfl)
    · exact Nat.le_succ_of_le (le_of_eq rfl)
  · intro hauto
    rw [hfire, hauto]
    rfl

/-- C10 witness: a concrete three-change burst with `debounceDuration = 5`
and the auto flag off. -/
theorem c10_witness :
    ([1, 2, 3] : List Nat).getLast? = some 3
    ∧ [1, 2, 3].foldl requestOptionsChanged c2mgr
        = { c2mgr with pendingDeadline := some (3 + c2mgr.debounceDuration) }
    ∧ ([1, 2, 3].foldl requestOptionsChanged c2mgr).pendingDeadline
        = some (3 + c2mgr.debounceDuration)
    ∧ (fireDebounce ([1, 2, 3].foldl requestOptionsChanged c2mgr)).pendingDeadline = none
    ∧ sentCount (fireDebounce ([1, 2, 3].foldl requestOptionsChanged c2mgr))
        ≤ sentCount c2mgr + 1
    ∧ (c2mgr.auto = false →
        fireDebounce ([1, 2, 3].foldl requestOptionsChanged c2mgr)
          = { c2mgr with pendingDeadline := none }) :=
  ⟨rfl, (c10_debounce c2mgr [1, 2, 3] 3 rfl).1,
   (c10_debounce c2mgr [1, 2, 3] 3 rfl).2.1,
   (c10_debounce c2mgr [1, 2, 3] 3 rfl).2.2.1,
   (c10_debounce c2mgr [1, 2, 3] 3 rfl).2.2.2.1,
   (c10_debounce c2mgr [1, 2, 3] 3 rfl).2.2.2.2⟩

end VoJsonp
